import Mathlib

/-!
Shallow embedding of the prox process supervisor core
(`internal/process/manager.go`, `internal/process/types.go`,
`internal/process/metrics.go`), faithful to the Go source.

Machine/OS interaction (spawning, signals, clock, gopsutil queries) is
modelled by explicit oracle parameters; everything the Go code computes
from those answers is embedded literally.
-/

namespace Prox

/-- The `ProcessStatus` constants from types.go. -/
inductive ProcessStatus where
  | online
  | stopped
  | errored
  | restarting
  | stopping
deriving DecidableEq, Repr

/-- A `RestartPolicy` is a plain string in the Go source (`type RestartPolicy string`). -/
abbrev RestartPolicy := String

def RestartAlways : RestartPolicy := "always"

def RestartOnFailure : RestartPolicy := "on-failure"

def RestartNever : RestartPolicy := "never"

/--
The `Process` struct from types.go.  The persisted/JSON fields are embedded
directly; the runtime-only fields (`cmd`, the two signal channels, the two
log file handles) are embedded by their observable state: whether `cmd` (with
a non-nil `cmd.Process`) is attached, whether each channel has been closed,
and whether each log file handle is currently open (non-nil).
Timestamps are abstract clock readings (`Nat`).
-/
structure Process where
  id : String
  name : String
  script : String
  interpreter : String
  args : List String
  cwd : String
  env : List String
  pid : Int
  status : ProcessStatus
  restarts : Nat
  startedAt : Nat
  stoppedAt : Option Nat
  restartPolicy : RestartPolicy
  dependsOn : List String
  cmdLive : Bool
  stopChClosed : Bool
  logStopChClosed : Bool
  logStdoutOpen : Bool
  logStderrOpen : Bool
deriving DecidableEq, Repr

/-- The `ProcessConfig` struct from types.go.  `env` is a `map[string]string`, embedded as
an association list in some iteration order. -/
structure ProcessConfig where
  name : String
  script : String
  interpreter : String
  args : List String
  cwd : String
  env : List (String × String)
  restart : RestartPolicy
  dependsOn : List String
deriving DecidableEq, Repr

/-- Errors returned by the manager operations, one constructor per
`fmt.Errorf` site relevant to the embedded code paths. -/
inductive ProcErr where
  | alreadyExists (name : String)
  | notFound (nameOrID : String)
  | stdoutLogOpenFailed
  | stderrLogOpenFailed
  | startFailed
  | alreadyStopped (name : String)
  | sigtermFailed (pid : Int)
  | killFailed (pid : Int)
deriving DecidableEq, Repr

/-- The outcome of the OS-level calls made by one `startProcess` invocation:
whether each log-file open succeeds and whether `cmd.Start()` succeeds
(`some pid` on success). -/
structure SpawnWorld where
  stdoutLogOk : Bool
  stderrLogOk : Bool
  startResult : Option Int
deriving Repr

/-- The `Manager` struct from manager.go: the registry of processes (a Go map
keyed by ID, embedded as a list with unique ids) plus whether a storage
backend is attached (`m.storage != nil`). -/
structure Manager where
  processes : List Process
  storageSet : Bool
deriving DecidableEq, Repr

/--
`Manager.startProcess` from manager.go.  Builds the command (not observable
here), opens the two log files when storage is attached, then runs
`cmd.Start()`.  On start failure it closes and nils the just-opened log
handles, sets Status `errored` and returns the error.  On success it attaches
`cmd`, records the PID, sets Status `online`, sets the start timestamp and
clears the stop timestamp.  (The Crash Monitor goroutine it launches is
embedded separately as `Manager.monitorProcess`.)
-/
def Manager.startProcess (storageSet : Bool) (w : SpawnWorld) (now : Nat)
    (proc : Process) : Process × Option ProcErr :=
  if storageSet && !w.stdoutLogOk then
    (proc, some .stdoutLogOpenFailed)
  else if storageSet && !w.stderrLogOk then
    (proc, some .stderrLogOpenFailed)
  else
    let proc := if storageSet then
      { proc with logStdoutOpen := true, logStderrOpen := true }
    else proc
    match w.startResult with
    | none =>
        ({ proc with
            logStdoutOpen := false
            logStderrOpen := false
            status := .errored }, some .startFailed)
    | some pid =>
        ({ proc with
            cmdLive := true
            pid := pid
            status := .online
            startedAt := now
            stoppedAt := none }, none)

/-- The `Process` literal built inside `Manager.Start` (manager.go lines
60-85), including the env merge (`os.Environ()` first, config overlay
appended) and the cwd default. -/
def newProc (config : ProcessConfig) (newID : String) (osEnv : List String)
    (osWd : String) : Process :=
  let restartPolicy := if config.restart = "" then RestartOnFailure else config.restart
  { id := newID
    name := config.name
    script := config.script
    interpreter := config.interpreter
    args := config.args
    cwd := if config.cwd = "" then osWd else config.cwd
    env := osEnv ++ config.env.map (fun kv => kv.1 ++ "=" ++ kv.2)
    pid := 0
    status := .stopped
    restarts := 0
    startedAt := 0
    stoppedAt := none
    restartPolicy := restartPolicy
    dependsOn := config.dependsOn
    cmdLive := false
    stopChClosed := false
    logStopChClosed := false
    logStdoutOpen := false
    logStderrOpen := false }

/--
`Manager.Start` from manager.go.  Rejects a duplicate name, builds the
record, runs `startProcess`, and only on success inserts the record into the
registry (`m.processes[proc.ID] = proc`), returning the record.  On any
`startProcess` error it returns `(nil, err)` without inserting.
`newID` is the freshly generated UUID, `osEnv`/`osWd` the supervisor
environment and working directory.
-/
def Manager.Start (m : Manager) (config : ProcessConfig) (newID : String)
    (osEnv : List String) (osWd : String) (w : SpawnWorld) (now : Nat) :
    Manager × Option Process × Option ProcErr :=
  if m.processes.any (fun p => p.name == config.name) then
    (m, none, some (.alreadyExists config.name))
  else
    let proc := newProc config newID osEnv osWd
    match Manager.startProcess m.storageSet w now proc with
    | (_, some e) => (m, none, some e)
    | (proc, none) =>
        ({ m with processes := m.processes ++ [proc] }, some proc, none)

/-- Result of `proc.cmd.Wait()` as seen by the Crash Monitor: no error, an
`*exec.ExitError` carrying an exit code, or some other error. -/
inductive WaitResult where
  | noError
  | exitError (code : Int)
  | otherError
deriving DecidableEq, Repr

/-- The `exitCode` computation in `monitorProcess`: starts at 0 and is
overwritten only when the wait error is an `*exec.ExitError`. -/
def exitCodeOf : WaitResult → Int
  | .noError => 0
  | .exitError code => code
  | .otherError => 0

/-- The `switch proc.RestartPolicy` in `monitorProcess`: `always` restarts,
`on-failure` restarts exactly when the exit code is non-zero, `never` (and
any unrecognized policy string) does not. -/
def shouldRestartFor (policy : RestartPolicy) (exitCode : Int) : Bool :=
  if policy = RestartAlways then true
  else if policy = RestartOnFailure then exitCode != 0
  else false

/--
`Manager.monitorProcess` from manager.go (the Crash Monitor), entered when
`cmd.Wait()` returns.  If the stop channel was closed this was an intentional
stop: Status `stopped`, stop timestamp, return.  Otherwise the restart
counter is incremented, the exit code extracted, and the restart policy
evaluated; on restart the old log handles are closed, fresh channels created,
and `startProcess` re-run (on its failure: Status `errored` plus stop
timestamp); otherwise Status `errored`, stop timestamp, log handles closed.
Returns the updated record and whether a respawn was attempted.
-/
def Manager.monitorProcess (storageSet : Bool) (wres : WaitResult)
    (respawn : SpawnWorld) (now : Nat) (proc : Process) : Process × Bool :=
  if proc.stopChClosed then
    ({ proc with status := .stopped, stoppedAt := some now }, false)
  else
    let proc := { proc with restarts := proc.restarts + 1 }
    let exitCode := exitCodeOf wres
    if shouldRestartFor proc.restartPolicy exitCode then
      let proc := { proc with
        logStdoutOpen := false
        logStderrOpen := false
        stopChClosed := false
        logStopChClosed := false }
      match Manager.startProcess storageSet respawn now proc with
      | (p, some _) => ({ p with status := .errored, stoppedAt := some now }, true)
      | (p, none) => (p, true)
    else
      ({ proc with
          status := .errored
          stoppedAt := some now
          logStdoutOpen := false
          logStderrOpen := false }, false)

/-- The `processExists` check from types.go: a non-positive PID never exists; otherwise
the kernel answer to `Signal(0)` (the `alive` oracle; on Unix
`os.FindProcess` itself never fails). -/
def processExists (alive : Int → Bool) (pid : Int) : Bool :=
  if pid ≤ 0 then false else alive pid

/-- A signal delivery attempt made during `stopProcess`, in the Go
convention: a negative target means the whole process group. -/
inductive Sig where
  | term (target : Int)
  | kill (target : Int)
deriving DecidableEq, Repr

/-- OS answers consumed by one `stopProcess` invocation: PID liveness
queries, success of each SIGTERM/SIGKILL delivery, whether the PID is still
alive after the 5-second poll loop (reconnected path), and whether
`cmd.Wait()` finished within the 5-second grace window (normal path). -/
structure StopWorld where
  alive : Int → Bool
  termGroupOk : Bool
  termOk : Bool
  stillAliveAfterWait : Bool
  gracefulExit : Bool
  killGroupOk : Bool
  killOk : Bool

/--
`Manager.stopProcess` from manager.go.  Already-stopped records are rejected.
With no live `cmd` handle (reconnected-after-restore or never-spawned case):
if the recorded PID is positive and still alive, SIGTERM the process group
(falling back to the single PID; if both fail, error out), poll, force-kill
if still alive; in every non-error case mark `stopped` with a stop
timestamp.  With a live `cmd` handle: Status `stopping`, close both
channels, SIGTERM the group with single-PID fallback, wait up to 5 seconds,
SIGKILL on timeout (with fallback), then mark `stopped`, set the stop
timestamp and close the log files.  Returns the updated record, the ordered
list of signal deliveries attempted, and the error if any.
-/
def Manager.stopProcess (w : StopWorld) (now : Nat) (proc : Process) :
    Process × List Sig × Option ProcErr :=
  if proc.status = .stopped then
    (proc, [], some (.alreadyStopped proc.name))
  else if !proc.cmdLive then
    if proc.pid > 0 && processExists w.alive proc.pid then
      let sigs := [Sig.term (-proc.pid)]
      if !w.termGroupOk && !w.termOk then
        (proc, sigs ++ [Sig.term proc.pid], some (.sigtermFailed proc.pid))
      else
        let sigs := if w.termGroupOk then sigs else sigs ++ [Sig.term proc.pid]
        let sigs := if w.stillAliveAfterWait then
            sigs ++ [Sig.kill (-proc.pid), Sig.kill proc.pid]
          else sigs
        ({ proc with status := .stopped, stoppedAt := some now }, sigs, none)
    else
      ({ proc with status := .stopped, stoppedAt := some now }, [], none)
  else
    let proc := { proc with
      status := .stopping
      stopChClosed := true
      logStopChClosed := true }
    let sigs := [Sig.term (-proc.pid)]
    if !w.termGroupOk && !w.termOk then
      (proc, sigs ++ [Sig.term proc.pid], some (.sigtermFailed proc.pid))
    else
      let sigs := if w.termGroupOk then sigs else sigs ++ [Sig.term proc.pid]
      if w.gracefulExit then
        ({ proc with
            status := .stopped
            stoppedAt := some now
            logStdoutOpen := false
            logStderrOpen := false }, sigs, none)
      else
        let sigs := sigs ++ [Sig.kill (-proc.pid)]
        if !w.killGroupOk && !w.killOk then
          (proc, sigs ++ [Sig.kill proc.pid], some (.killFailed proc.pid))
        else
          let sigs := if w.killGroupOk then sigs else sigs ++ [Sig.kill proc.pid]
          ({ proc with
              status := .stopped
              stoppedAt := some now
              logStdoutOpen := false
              logStderrOpen := false }, sigs, none)

/-- The `Manager.findProcess` resolution from manager.go: map lookup by ID first, then a
scan for an exact Name match. -/
def Manager.findProcess (reg : List Process) (nameOrID : String) : Option Process :=
  match reg.find? (fun p => p.id == nameOrID) with
  | some proc => some proc
  | none => reg.find? (fun p => p.name == nameOrID)

/-- The `Manager.Get` operation from manager.go. -/
def Manager.Get (m : Manager) (nameOrID : String) : Option Process :=
  Manager.findProcess m.processes nameOrID

/-- Registry write-back: the Go code mutates the record in place through a
shared pointer, so the map entry under the record ID now holds the updated
record. -/
def updateReg (reg : List Process) (p : Process) : List Process :=
  reg.map (fun q => if q.id = p.id then p else q)

/-- The `Manager.Stop` operation from manager.go: resolve by name-or-ID, then
`stopProcess`. -/
def Manager.Stop (m : Manager) (nameOrID : String) (w : StopWorld) (now : Nat) :
    Manager × List Sig × Option ProcErr :=
  match Manager.findProcess m.processes nameOrID with
  | none => (m, [], some (.notFound nameOrID))
  | some proc =>
      let (proc, sigs, err) := Manager.stopProcess w now proc
      ({ m with processes := updateReg m.processes proc }, sigs, err)

/-- Result of `Manager.Restart`: the new manager state, the returned error,
whether `stopProcess` was invoked, and the signals delivered while stopping. -/
structure RestartResult where
  manager : Manager
  err : Option ProcErr
  stopCalled : Bool
  sigs : List Sig
deriving Repr

/--
`Manager.Restart` from manager.go, statement for statement: resolve the
record; set Status `restarting`; then `if proc.Status == StatusOnline`
(reading the field just overwritten) run `stopProcess`; recreate the two
channels; re-run `startProcess` and return its error.
-/
def Manager.Restart (m : Manager) (nameOrID : String) (sw : StopWorld)
    (w : SpawnWorld) (now : Nat) : RestartResult :=
  match Manager.findProcess m.processes nameOrID with
  | none => ⟨m, some (.notFound nameOrID), false, []⟩
  | some proc =>
      let proc := { proc with status := .restarting }
      if proc.status = .online then
        match Manager.stopProcess sw now proc with
        | (proc, sigs, some e) =>
            ⟨{ m with processes := updateReg m.processes proc }, some e, true, sigs⟩
        | (proc, sigs, none) =>
            let proc := { proc with stopChClosed := false, logStopChClosed := false }
            let (proc, err) := Manager.startProcess m.storageSet w now proc
            ⟨{ m with processes := updateReg m.processes proc }, err, true, sigs⟩
      else
        let proc := { proc with stopChClosed := false, logStopChClosed := false }
        let (proc, err) := Manager.startProcess m.storageSet w now proc
        ⟨{ m with processes := updateReg m.processes proc }, err, false, []⟩

/-- The `Manager.List` operation from manager.go: snapshot of the registry sorted by Name
ascending. -/
def Manager.list (m : Manager) : List Process :=
  m.processes.mergeSort (fun a b => a.name ≤ b.name)

/-- The `ProcessState` struct from the state-persistence part of the process package:
the struct actually serialized to disk.  It carries exactly these twelve
fields — there are no `RestartPolicy` or `DependsOn` fields in it. -/
structure ProcessState where
  id : String
  name : String
  script : String
  interpreter : String
  args : List String
  cwd : String
  env : List String
  pid : Int
  status : ProcessStatus
  restarts : Nat
  startedAt : Nat
  stoppedAt : Option Nat
deriving DecidableEq, Repr

/-- The `ProcessState` literal built per record inside `Manager.SaveState`. -/
def toState (proc : Process) : ProcessState :=
  { id := proc.id
    name := proc.name
    script := proc.script
    interpreter := proc.interpreter
    args := proc.args
    cwd := proc.cwd
    env := proc.env
    pid := proc.pid
    status := proc.status
    restarts := proc.restarts
    startedAt := proc.startedAt
    stoppedAt := proc.stoppedAt }

/-- The `Manager.SaveState` operation: serializes every record of the registry to its
`ProcessState` (the storage write itself is outside the core). -/
def Manager.SaveState (m : Manager) : List ProcessState :=
  m.processes.map toState

/--
The per-record body of `Manager.LoadState`: rebuild a `Process` from a
`ProcessState` with fresh channels and no `cmd` handle.  The Go literal
omits `RestartPolicy` and `DependsOn`, so they come back as their zero
values (`""` and nil).  If the persisted Status was `online` and the
recorded PID no longer exists, downgrade to `errored` with the stop
timestamp set to the restore time.
-/
def restoreProc (alive : Int → Bool) (now : Nat) (s : ProcessState) : Process :=
  let proc : Process :=
    { id := s.id
      name := s.name
      script := s.script
      interpreter := s.interpreter
      args := s.args
      cwd := s.cwd
      env := s.env
      pid := s.pid
      status := s.status
      restarts := s.restarts
      startedAt := s.startedAt
      stoppedAt := s.stoppedAt
      restartPolicy := ""
      dependsOn := []
      cmdLive := false
      stopChClosed := false
      logStopChClosed := false
      logStdoutOpen := false
      logStderrOpen := false }
  if proc.status = .online && !processExists alive proc.pid then
    { proc with status := .errored, stoppedAt := some now }
  else
    proc

/-- The `Manager.LoadState` operation applied to a decoded new-format snapshot: every
persisted record is rebuilt by `restoreProc` and inserted into the (fresh)
registry. -/
def Manager.LoadState (alive : Int → Bool) (now : Nat)
    (states : List ProcessState) : List Process :=
  states.map (restoreProc alive now)

/-- The `ProcessMetrics` struct from types.go.  The float64 metric values carry no
float-specific arithmetic in the embedded code paths, so they are embedded
as rationals. -/
structure ProcessMetrics where
  pid : Int
  cpu : ℚ
  memory : Nat
  memoryPercent : ℚ
  uptime : Nat
  netSent : Nat
  netRecv : Nat
deriving DecidableEq, Repr

/-- One post-header line of `/proc/<pid>/net/dev` as the Go loop consumes
it: the parse results of fields[1] (receive bytes) and fields[9] (transmit
bytes); `none` stands for a parse failure or a line with fewer than 10
fields, which contributes nothing to either sum. -/
structure NetIfLine where
  recvBytes : Option Nat
  sentBytes : Option Nat
deriving DecidableEq, Repr

/-- OS/gopsutil answers consumed by one `CollectMetrics` call: whether
`gopsutil.NewProcess` succeeds for the PID, the results of `CPUPercent`,
`MemoryInfo` (the RSS; `none` for an error or nil info), `MemoryPercent`,
and the readable-and-parsed content of `/proc/<pid>/net/dev` (`none` for a
read error). -/
structure MetricsWorld where
  newProcessOk : Int → Bool
  cpuPercent : Int → Option ℚ
  memRss : Int → Option Nat
  memPercent : Int → Option ℚ
  netDev : Int → Option (List NetIfLine)

/--
`MetricsCollector.CollectMetrics` from metrics.go.  Not-online records (or
non-positive PIDs) yield empty metrics with only the PID filled in and no
error.  A failed `NewProcess` yields the PID and uptime with all other
fields zero, and no error.  Otherwise each individual query failure zeroes
just its own fields.  Every path returns a nil error.
-/
def CollectMetrics (w : MetricsWorld) (now : Nat) (proc : Process) :
    ProcessMetrics × Option ProcErr :=
  let pid := proc.pid
  if proc.status ≠ ProcessStatus.online ∨ pid ≤ 0 then
    ({ pid := pid, cpu := 0, memory := 0, memoryPercent := 0, uptime := 0,
       netSent := 0, netRecv := 0 }, none)
  else if !w.newProcessOk pid then
    ({ pid := pid, cpu := 0, memory := 0, memoryPercent := 0,
       uptime := now - proc.startedAt, netSent := 0, netRecv := 0 }, none)
  else
    let cpu := (w.cpuPercent pid).getD 0
    let mem := match w.memRss pid with
      | some rss => (rss, (w.memPercent pid).getD 0)
      | none => (0, (0 : ℚ))
    let net := match w.netDev pid with
      | none => (0, 0)
      | some lines =>
          lines.foldl
            (fun acc (l : NetIfLine) =>
              (acc.1 + l.sentBytes.getD 0, acc.2 + l.recvBytes.getD 0))
            ((0 : Nat), (0 : Nat))
    ({ pid := pid, cpu := cpu, memory := mem.1, memoryPercent := mem.2,
       uptime := now - proc.startedAt, netSent := net.1, netRecv := net.2 },
     none)

/-- The `MetricsCollector.CollectAllMetrics` operation from metrics.go: list the managed
processes, collect metrics for each, skip (continue past) any that errors,
and key the results by process ID. -/
def CollectAllMetrics (w : MetricsWorld) (now : Nat) (m : Manager) :
    List (String × ProcessMetrics) :=
  (Manager.list m).foldl
    (fun acc proc =>
      match CollectMetrics w now proc with
      | (_, some _) => acc
      | (met, none) => acc ++ [(proc.id, met)])
    []

/-! ## Fixtures used for witnesses and concrete checks -/

/-- An online record with a live `cmd` handle, as after a successful Start. -/
def sampleOnline : Process :=
  { id := "id-1"
    name := "web"
    script := "server.js"
    interpreter := "node"
    args := ["--port", "8080"]
    cwd := "/srv"
    env := ["PATH=/bin"]
    pid := 41
    status := .online
    restarts := 2
    startedAt := 10
    stoppedAt := none
    restartPolicy := "always"
    dependsOn := ["db"]
    cmdLive := true
    stopChClosed := false
    logStopChClosed := false
    logStdoutOpen := true
    logStderrOpen := true }

/-- A stopped record. -/
def sampleStopped : Process :=
  { sampleOnline with
      id := "id-2"
      name := "worker"
      pid := 55
      status := .stopped
      stoppedAt := some 20
      cmdLive := false
      logStdoutOpen := false
      logStderrOpen := false }

/-- An errored record with no `cmd` handle, as after a restore. -/
def sampleErrored : Process :=
  { sampleOnline with
      id := "id-3"
      name := "batch"
      pid := 77
      status := .errored
      stoppedAt := some 30
      cmdLive := false
      logStdoutOpen := false
      logStderrOpen := false }

/-- A stop-world where every OS call succeeds and the child exits within the
grace period. -/
def swOk : StopWorld :=
  { alive := fun _ => false
    termGroupOk := true
    termOk := true
    stillAliveAfterWait := false
    gracefulExit := true
    killGroupOk := true
    killOk := true }

/-- A spawn-world where everything succeeds and the child gets PID 99. -/
def wOk : SpawnWorld :=
  { stdoutLogOk := true, stderrLogOk := true, startResult := some 99 }

/-- A spawn-world where `cmd.Start()` fails. -/
def wFail : SpawnWorld :=
  { stdoutLogOk := true, stderrLogOk := true, startResult := none }

/-- A metrics-world where every OS/gopsutil query fails. -/
def mwNone : MetricsWorld :=
  { newProcessOk := fun _ => false
    cpuPercent := fun _ => none
    memRss := fun _ => none
    memPercent := fun _ => none
    netDev := fun _ => none }

/-- A configuration whose Name collides with `sampleOnline`. -/
def cfgDup : ProcessConfig :=
  { name := "web"
    script := "x"
    interpreter := ""
    args := []
    cwd := ""
    env := []
    restart := ""
    dependsOn := [] }

/-! ## Helper lemmas -/

theorem findProcess_mem {reg : List Process} {k : String} {p : Process}
    (h : Manager.findProcess reg k = some p) : p ∈ reg := by
  unfold Manager.findProcess at h
  rcases hid : reg.find? (fun q => q.id == k) with _ | q
  · rw [hid] at h
    exact List.mem_of_find?_eq_some h
  · rw [hid] at h
    cases h
    exact List.mem_of_find?_eq_some hid

theorem updateReg_self {reg : List Process} {p : Process} (hmem : p ∈ reg)
    (hids : (reg.map (fun q => q.id)).Nodup) : updateReg reg p = reg := by
  unfold updateReg
  have hinj := List.inj_on_of_nodup_map hids
  conv_rhs => rw [← List.map_id reg]
  refine List.map_congr_left ?_
  intro q hq
  by_cases hqp : q.id = p.id
  · simp only [hqp, if_pos rfl, id]
    exact (hinj hq hmem hqp).symm
  · simp [hqp]

theorem find?_id_eq_of_nodup {reg : List Process} {k : String} {a : Process}
    (hids : (reg.map (fun q => q.id)).Nodup) (ha : a ∈ reg) (hid : a.id = k) :
    reg.find? (fun p => p.id == k) = some a := by
  induction reg with
  | nil => cases ha
  | cons c rest ih =>
    simp only [List.map_cons, List.nodup_cons] at hids
    rcases List.mem_cons.mp ha with hac | harest
    · subst hac
      simp [List.find?, hid]
    · by_cases hc : c.id = k
      · exfalso
        apply hids.1
        rw [hc, ← hid]
        exact List.mem_map_of_mem (fun q => q.id) harest
      · have : (c.id == k) = false := by
          simp [hc]
        simp only [List.find?, this]
        exact ih hids.2 harest

end Prox

namespace Prox

/--
C7: calling Stop on a record whose Status is `stopped` returns an
"already stopped" error and performs no further action: no signal is sent
and neither the record nor the registry changes.
-/
theorem stop_already_stopped_noop (m : Manager) (k : String) (w : StopWorld)
    (now : Nat) (p : Process)
    (hfind : Manager.findProcess m.processes k = some p)
    (hstopped : p.status = ProcessStatus.stopped)
    (hids : (m.processes.map (fun q => q.id)).Nodup) :
    Manager.Stop m k w now = (m, [], some (.alreadyStopped p.name)) := by
  have hstop : Manager.stopProcess w now p = (p, [], some (.alreadyStopped p.name)) := by
    unfold Manager.stopProcess
    rw [if_pos hstopped]
  unfold Manager.Stop
  rw [hfind]
  dsimp only
  rw [hstop]
  simp [updateReg_self (findProcess_mem hfind) hids]

theorem stop_already_stopped_noop_witness :
    Manager.findProcess [sampleStopped] "worker" = some sampleStopped ∧
    sampleStopped.status = ProcessStatus.stopped ∧
    (([sampleStopped] : List Process).map (fun q => q.id)).Nodup ∧
    Manager.Stop ⟨[sampleStopped], true⟩ "worker" swOk 44 =
      (⟨[sampleStopped], true⟩, [], some (.alreadyStopped "worker")) :=
  ⟨by decide, by decide, by decide,
    stop_already_stopped_noop ⟨[sampleStopped], true⟩ "worker" swOk 44
      sampleStopped (by decide) (by decide) (by decide)⟩

/--
C10: for a record that is not `stopped` and has no live `cmd` handle, if the
recorded PID is not positive or no longer refers to a live process, Stop
sends no signal, marks the record `stopped` with the stop timestamp set, and
returns no error — in particular Stop on such an `errored` record succeeds.
-/
theorem stop_dead_reconnected_succeeds (w : StopWorld) (now : Nat) (proc : Process)
    (hns : proc.status ≠ ProcessStatus.stopped)
    (hcmd : proc.cmdLive = false)
    (hdead : proc.pid ≤ 0 ∨ w.alive proc.pid = false) :
    Manager.stopProcess w now proc =
      ({ proc with status := .stopped, stoppedAt := some now }, [], none) := by
  unfold Manager.stopProcess
  rw [if_neg hns]
  have hgone : (proc.pid > 0 && processExists w.alive proc.pid) = false := by
    unfold processExists
    rcases hdead with hle | hdead
    · have : ¬ proc.pid > 0 := by omega
      simp [this]
    · by_cases hpos : proc.pid ≤ 0
      · simp [hpos]
      · simp [hpos, hdead]
  simp [hcmd, hgone]

theorem stop_dead_reconnected_succeeds_witness :
    sampleErrored.status ≠ ProcessStatus.stopped ∧
    sampleErrored.cmdLive = false ∧
    (sampleErrored.pid ≤ 0 ∨ swOk.alive sampleErrored.pid = false) ∧
    Manager.stopProcess swOk 50 sampleErrored =
      ({ sampleErrored with status := .stopped, stoppedAt := some 50 }, [], none) :=
  ⟨by decide, by decide, Or.inr (by decide),
    stop_dead_reconnected_succeeds swOk 50 sampleErrored (by decide) (by decide)
      (Or.inr (by decide))⟩

/--
C8: name resolution tries an exact ID match before an exact Name match, so a
lookup string equal to the ID of one record and the Name of a different record returns
the record with the matching ID.
-/
theorem get_prefers_id_over_name (m : Manager) (k : String) (a b : Process)
    (hids : (m.processes.map (fun q => q.id)).Nodup)
    (ha : a ∈ m.processes) (hb : b ∈ m.processes) (hab : a ≠ b)
    (haid : a.id = k) (hbname : b.name = k) :
    Manager.Get m k = some a := by
  unfold Manager.Get Manager.findProcess
  rw [find?_id_eq_of_nodup hids ha haid]

theorem shouldRestartFor_eq_true_iff (policy : RestartPolicy) (code : Int) :
    shouldRestartFor policy code = true ↔
      (policy = RestartAlways ∨ (policy = RestartOnFailure ∧ code ≠ 0)) := by
  unfold shouldRestartFor
  by_cases h1 : policy = RestartAlways
  · simp [h1, RestartAlways, RestartOnFailure]
  · by_cases h2 : policy = RestartOnFailure
    · simp [h1, h2]
    · simp [h1, h2]

theorem startProcess_preserves (s : Bool) (w : SpawnWorld) (now : Nat) (p : Process) :
    ((Manager.startProcess s w now p).1).restarts = p.restarts ∧
    ((Manager.startProcess s w now p).1).name = p.name ∧
    ((Manager.startProcess s w now p).1).restartPolicy = p.restartPolicy := by
  unfold Manager.startProcess
  split
  · exact ⟨rfl, rfl, rfl⟩
  · split
    · exact ⟨rfl, rfl, rfl⟩
    · dsimp only
      split <;> split <;> exact ⟨rfl, rfl, rfl⟩

/--
C4: on a non-intentional exit the Crash Monitor increments the restart
counter by exactly 1, attempts a respawn exactly when the policy is `always`
or the policy is `on-failure` with a non-zero exit code (0 standing in when
the code cannot be determined), and otherwise leaves the record `errored`
with a stop timestamp.
-/
theorem monitor_crash_restart_policy (storageSet : Bool) (wres : WaitResult)
    (respawn : SpawnWorld) (now : Nat) (proc : Process)
    (hni : proc.stopChClosed = false) :
    (Manager.monitorProcess storageSet wres respawn now proc).1.restarts =
      proc.restarts + 1 ∧
    ((Manager.monitorProcess storageSet wres respawn now proc).2 = true ↔
      (proc.restartPolicy = RestartAlways ∨
        (proc.restartPolicy = RestartOnFailure ∧ exitCodeOf wres ≠ 0))) ∧
    ((Manager.monitorProcess storageSet wres respawn now proc).2 = false →
      (Manager.monitorProcess storageSet wres respawn now proc).1.status =
        ProcessStatus.errored ∧
      (Manager.monitorProcess storageSet wres respawn now proc).1.stoppedAt =
        some now) := by
  unfold Manager.monitorProcess
  rw [if_neg (by simp [hni])]
  dsimp only
  by_cases hsr : shouldRestartFor proc.restartPolicy (exitCodeOf wres) = true
  · rw [if_pos hsr]
    rcases hS : Manager.startProcess storageSet respawn now
        { proc with
            restarts := proc.restarts + 1
            logStdoutOpen := false
            logStderrOpen := false
            stopChClosed := false
            logStopChClosed := false } with ⟨p2, e⟩
    have hres := (startProcess_preserves storageSet respawn now
      { proc with
          restarts := proc.restarts + 1
          logStdoutOpen := false
          logStderrOpen := false
          stopChClosed := false
          logStopChClosed := false }).1
    rw [hS] at hres
    cases e with
    | none =>
        simp only [hS]
        exact ⟨hres, by simp [← shouldRestartFor_eq_true_iff, hsr], by simp⟩
    | some err =>
        simp only [hS]
        exact ⟨hres, by simp [← shouldRestartFor_eq_true_iff, hsr], by simp⟩
  · rw [if_neg hsr]
    refine ⟨rfl, ?_, fun _ => ⟨rfl, rfl⟩⟩
    rw [← shouldRestartFor_eq_true_iff]
    simp only [Bool.not_eq_true] at hsr
    simp [hsr]

theorem monitor_crash_restart_policy_witness :
    ({ sampleOnline with restartPolicy := "never" } : Process).stopChClosed = false ∧
    (Manager.monitorProcess false (WaitResult.exitError 2) wOk 60
      { sampleOnline with restartPolicy := "never" }).1.restarts =
        { sampleOnline with restartPolicy := "never" }.restarts + 1 ∧
    ((Manager.monitorProcess false (WaitResult.exitError 2) wOk 60
      { sampleOnline with restartPolicy := "never" }).2 = true ↔
      ({ sampleOnline with restartPolicy := "never" }.restartPolicy = RestartAlways ∨
        ({ sampleOnline with restartPolicy := "never" }.restartPolicy = RestartOnFailure ∧
          exitCodeOf (WaitResult.exitError 2) ≠ 0))) ∧
    ((Manager.monitorProcess false (WaitResult.exitError 2) wOk 60
      { sampleOnline with restartPolicy := "never" }).2 = false →
      (Manager.monitorProcess false (WaitResult.exitError 2) wOk 60
        { sampleOnline with restartPolicy := "never" }).1.status =
          ProcessStatus.errored ∧
      (Manager.monitorProcess false (WaitResult.exitError 2) wOk 60
        { sampleOnline with restartPolicy := "never" }).1.stoppedAt = some 60) :=
  ⟨rfl, monitor_crash_restart_policy false (WaitResult.exitError 2) wOk 60
    { sampleOnline with restartPolicy := "never" } rfl⟩

/--
C5: a record restored by LoadState whose persisted Status was `online` keeps
Status `online` when its recorded PID is still alive, and is downgraded to
`errored` with the stop timestamp set to the restore time when it is not.
-/
theorem loadstate_pid_reconcile (alive : Int → Bool) (now : Nat)
    (states : List ProcessState) (s : ProcessState)
    (hs : s ∈ states) (honline : s.status = ProcessStatus.online) :
    ∃ q ∈ Manager.LoadState alive now states,
      q.id = s.id ∧ q.pid = s.pid ∧
      (processExists alive s.pid = false →
        q.status = ProcessStatus.errored ∧ q.stoppedAt = some now) ∧
      (processExists alive s.pid = true →
        q.status = ProcessStatus.online ∧ q.stoppedAt = s.stoppedAt) := by
  refine ⟨restoreProc alive now s, List.mem_map_of_mem _ hs, ?_⟩
  unfold restoreProc
  dsimp only
  by_cases hpe : processExists alive s.pid = true
  · rw [if_neg (by simp [hpe])]
    exact ⟨rfl, rfl, by simp [hpe], fun _ => ⟨honline, rfl⟩⟩
  · simp only [Bool.not_eq_true] at hpe
    rw [if_pos (by simp [honline, hpe])]
    exact ⟨rfl, rfl, fun _ => ⟨rfl, rfl⟩, by simp [hpe]⟩

theorem loadstate_pid_reconcile_witness :
    (toState sampleOnline) ∈ [toState sampleOnline] ∧
    (toState sampleOnline).status = ProcessStatus.online ∧
    ∃ q ∈ Manager.LoadState (fun _ => false) 70 [toState sampleOnline],
      q.id = (toState sampleOnline).id ∧ q.pid = (toState sampleOnline).pid ∧
      (processExists (fun _ => false) (toState sampleOnline).pid = false →
        q.status = ProcessStatus.errored ∧ q.stoppedAt = some 70) ∧
      (processExists (fun _ => false) (toState sampleOnline).pid = true →
        q.status = ProcessStatus.online ∧
        q.stoppedAt = (toState sampleOnline).stoppedAt) :=
  ⟨by decide, by decide,
    loadstate_pid_reconcile (fun _ => false) 70 [toState sampleOnline]
      (toState sampleOnline) (by decide) (by decide)⟩

/--
C1 counterexample: starting `cfgDup` on an empty registry with
`cmd.Start()` failing returns the spawn error but inserts nothing — the
registry stays empty and Get does not find the record, contradicting the
claim that the record is inserted with Status `errored` and visible to
List/Get.
-/
theorem start_spawn_fail_not_inserted_cex :
    Manager.Start ⟨[], false⟩ cfgDup "id1" [] "/" wFail 3 =
      (⟨[], false⟩, none, some .startFailed) ∧
    (Manager.Start ⟨[], false⟩ cfgDup "id1" [] "/" wFail 3).1.processes = [] ∧
    Manager.Get (Manager.Start ⟨[], false⟩ cfgDup "id1" [] "/" wFail 3).1 "web" =
      none := by
  refine ⟨?_, ?_, ?_⟩ <;> decide

/--
C1 (amended): for a fresh name, when the OS spawn (`cmd.Start()`) fails,
the constructed record is marked `errored` but then discarded: Start
returns the spawn error with the registry unchanged, so a subsequent
List/Get does not find the record.
-/
theorem start_spawn_fail_not_inserted (m : Manager) (config : ProcessConfig)
    (newID : String) (osEnv : List String) (osWd : String) (w : SpawnWorld)
    (now : Nat)
    (hname : m.processes.any (fun p => p.name == config.name) = false)
    (hlog1 : w.stdoutLogOk = true) (hlog2 : w.stderrLogOk = true)
    (hw : w.startResult = none) :
    Manager.Start m config newID osEnv osWd w now = (m, none, some .startFailed) ∧
    (Manager.startProcess m.storageSet w now
      (newProc config newID osEnv osWd)).1.status = ProcessStatus.errored := by
  have herr : (Manager.startProcess m.storageSet w now
      (newProc config newID osEnv osWd)).2 = some .startFailed := by
    unfold Manager.startProcess
    rw [hlog1, hlog2, hw]
    simp
  have hst : (Manager.startProcess m.storageSet w now
      (newProc config newID osEnv osWd)).1.status = ProcessStatus.errored := by
    unfold Manager.startProcess
    rw [hlog1, hlog2, hw]
    simp
  refine ⟨?_, hst⟩
  unfold Manager.Start
  rw [if_neg (by simp [hname])]
  dsimp only
  rcases hS : Manager.startProcess m.storageSet w now
      (newProc config newID osEnv osWd) with ⟨r, e⟩
  rw [hS] at herr
  simp only at herr
  rw [herr]

theorem start_spawn_fail_not_inserted_witness :
    (([sampleStopped] : List Process).any (fun p => p.name == cfgDup.name) = false) ∧
    wFail.stdoutLogOk = true ∧ wFail.stderrLogOk = true ∧
    wFail.startResult = none ∧
    (Manager.Start ⟨[sampleStopped], true⟩ cfgDup "id1" [] "/" wFail 3 =
      (⟨[sampleStopped], true⟩, none, some .startFailed) ∧
    (Manager.startProcess true wFail 3
      (newProc cfgDup "id1" [] "/")).1.status = ProcessStatus.errored) :=
  ⟨by decide, rfl, rfl, rfl,
    start_spawn_fail_not_inserted ⟨[sampleStopped], true⟩ cfgDup "id1" [] "/"
      wFail 3 (by decide) rfl rfl rfl⟩

/--
C2: at a registry holding one `online` record with a live `cmd` handle,
Restart never invokes the Stop sequence: it overwrites Status with
`restarting` and only then tests `Status == online`, so the test is always
false, `stopProcess` is not called and no stop signal is delivered before
the respawn.
-/
theorem restart_online_never_stops :
    sampleOnline.status = ProcessStatus.online ∧
    sampleOnline.cmdLive = true ∧
    (Manager.Restart ⟨[sampleOnline], false⟩ "web" swOk wOk 9).stopCalled = false ∧
    (Manager.Restart ⟨[sampleOnline], false⟩ "web" swOk wOk 9).sigs = [] := by
  refine ⟨?_, ?_, ?_, ?_⟩ <;> decide

/--
C3 counterexample: a `stopped` record with RestartPolicy `always` and
DependsOn `["db"]` loses both fields across SaveState/LoadState — the
restored record carries the zero values `""` and `[]` — contradicting the
claim that RestartPolicy and DependsOn are among the exactly-reproduced
persisted fields.
-/
theorem saveload_drops_policy_cex :
    sampleStopped.status = ProcessStatus.stopped ∧
    sampleStopped.restartPolicy = "always" ∧
    sampleStopped.dependsOn = ["db"] ∧
    (Manager.LoadState (fun _ => false) 7
        (Manager.SaveState ⟨[sampleStopped], false⟩)).map
      (fun q => (q.restartPolicy, q.dependsOn)) = [("", [])] := by
  refine ⟨?_, ?_, ?_, ?_⟩ <;> decide

/--
C3 (amended): SaveState followed by LoadState reproduces ID, Name, Script,
Interpreter, Args, Cwd, Env, PID, Status, Restarts, StartedAt and StoppedAt
exactly for each record that was not `online` at snapshot time;
RestartPolicy and DependsOn are not persisted and come back as their zero
values ("" and the empty list).
-/
theorem saveload_roundtrip_non_online (m : Manager) (alive : Int → Bool)
    (now : Nat) (p : Process) (hp : p ∈ m.processes)
    (hno : p.status ≠ ProcessStatus.online) :
    ∃ q ∈ Manager.LoadState alive now (Manager.SaveState m),
      q.id = p.id ∧ q.name = p.name ∧ q.script = p.script ∧
      q.interpreter = p.interpreter ∧ q.args = p.args ∧ q.cwd = p.cwd ∧
      q.env = p.env ∧ q.pid = p.pid ∧ q.status = p.status ∧
      q.restarts = p.restarts ∧ q.startedAt = p.startedAt ∧
      q.stoppedAt = p.stoppedAt ∧ q.restartPolicy = "" ∧ q.dependsOn = [] := by
  refine ⟨restoreProc alive now (toState p), ?_, ?_⟩
  · unfold Manager.LoadState Manager.SaveState
    exact List.mem_map_of_mem _ (List.mem_map_of_mem _ hp)
  · unfold restoreProc toState
    dsimp only
    rw [if_neg (by simp [hno])]
    exact ⟨rfl, rfl, rfl, rfl, rfl, rfl, rfl, rfl, rfl, rfl, rfl, rfl, rfl, rfl⟩

theorem saveload_roundtrip_non_online_witness :
    sampleErrored ∈ ([sampleErrored] : List Process) ∧
    sampleErrored.status ≠ ProcessStatus.online ∧
    ∃ q ∈ Manager.LoadState (fun _ => true) 90
        (Manager.SaveState ⟨[sampleErrored], false⟩),
      q.id = sampleErrored.id ∧ q.name = sampleErrored.name ∧
      q.script = sampleErrored.script ∧
      q.interpreter = sampleErrored.interpreter ∧ q.args = sampleErrored.args ∧
      q.cwd = sampleErrored.cwd ∧ q.env = sampleErrored.env ∧
      q.pid = sampleErrored.pid ∧ q.status = sampleErrored.status ∧
      q.restarts = sampleErrored.restarts ∧
      q.startedAt = sampleErrored.startedAt ∧
      q.stoppedAt = sampleErrored.stoppedAt ∧ q.restartPolicy = "" ∧
      q.dependsOn = [] :=
  ⟨by decide, by decide,
    saveload_roundtrip_non_online ⟨[sampleErrored], false⟩ (fun _ => true) 90
      sampleErrored (by decide) (by decide)⟩

/-- Name uniqueness across a registry, as the spec uses it. -/
def uniqueNames (reg : List Process) : Prop :=
  (reg.map (fun p => p.name)).Nodup

/--
C6: Start rejects a configuration whose Name is already registered
(case-sensitive exact match) with a duplicate-name error and no side
effects, and Start never makes two simultaneously-registered records share a
Name.
-/
theorem start_duplicate_name_rejected (m : Manager) (config : ProcessConfig)
    (newID : String) (osEnv : List String) (osWd : String) (w : SpawnWorld)
    (now : Nat) :
    (m.processes.any (fun p => p.name == config.name) = true →
      Manager.Start m config newID osEnv osWd w now =
        (m, none, some (.alreadyExists config.name))) ∧
    (uniqueNames m.processes →
      uniqueNames (Manager.Start m config newID osEnv osWd w now).1.processes) := by
  constructor
  · intro hdup
    unfold Manager.Start
    rw [if_pos hdup]
  · intro hu
    by_cases hdup : m.processes.any (fun p => p.name == config.name) = true
    · unfold Manager.Start
      rw [if_pos hdup]
      exact hu
    · unfold Manager.Start
      rw [if_neg hdup]
      dsimp only
      rcases hS : Manager.startProcess m.storageSet w now
          (newProc config newID osEnv osWd) with ⟨q, e⟩
      have hname := (startProcess_preserves m.storageSet w now
        (newProc config newID osEnv osWd)).2.1
      rw [hS] at hname
      have hqname : q.name = config.name := by
        rw [hname]
        rfl
      cases e with
      | none =>
          dsimp only
          unfold uniqueNames at hu ⊢
          rw [List.map_append]
          rw [List.nodup_append]
          refine ⟨hu, List.nodup_singleton _, ?_⟩
          intro x hx hx1
          simp only [List.map_cons, List.map_nil, List.mem_singleton] at hx1
          rcases List.mem_map.mp hx with ⟨r, hr, hrx⟩
          have hdup2 : ∀ r ∈ m.processes, ¬ r.name = config.name := by
            simpa [List.any_eq_true] using hdup
          exact hdup2 r hr (by rw [hrx, hx1, hqname])
      | some err =>
          exact hu

theorem start_duplicate_name_rejected_witness :
    (([sampleOnline] : List Process).any (fun p => p.name == cfgDup.name) = true) ∧
    Manager.Start ⟨[sampleOnline], false⟩ cfgDup "id9" [] "/" wOk 80 =
      (⟨[sampleOnline], false⟩, none, some (.alreadyExists "web")) ∧
    uniqueNames [sampleOnline] ∧
    uniqueNames
      (Manager.Start ⟨[sampleOnline], false⟩ cfgDup "id9" [] "/" wOk 80).1.processes :=
  ⟨by decide,
    (start_duplicate_name_rejected ⟨[sampleOnline], false⟩ cfgDup "id9" [] "/"
      wOk 80).1 (by decide),
    by unfold uniqueNames; decide,
    (start_duplicate_name_rejected ⟨[sampleOnline], false⟩ cfgDup "id9" [] "/"
      wOk 80).2 (by unfold uniqueNames; decide)⟩

theorem collectMetrics_no_err (w : MetricsWorld) (now : Nat) (p : Process) :
    (CollectMetrics w now p).2 = none := by
  simp only [CollectMetrics]
  split
  · rfl
  · split
    · rfl
    · rfl

theorem collectAll_eq_map (w : MetricsWorld) (now : Nat) (m : Manager) :
    CollectAllMetrics w now m =
      (Manager.list m).map
        (fun proc => (proc.id, (CollectMetrics w now proc).1)) := by
  unfold CollectAllMetrics
  suffices h : ∀ (l : List Process) (acc : List (String × ProcessMetrics)),
      l.foldl (fun acc proc =>
        match CollectMetrics w now proc with
        | (_, some _) => acc
        | (met, none) => acc ++ [(proc.id, met)]) acc
      = acc ++ l.map (fun proc => (proc.id, (CollectMetrics w now proc).1)) by
    simpa using h (Manager.list m) []
  intro l
  induction l with
  | nil => intro acc; simp
  | cons p rest ih =>
      intro acc
      rcases hC : CollectMetrics w now p with ⟨met, e⟩
      have he : e = none := by
        have hne := collectMetrics_no_err w now p
        rw [hC] at hne
        exact hne
      subst he
      simp only [List.foldl_cons, List.map_cons, hC]
      rw [ih]
      simp

/--
C9 counterexample: for an `online` record with PID 41 started at time 10,
when `gopsutil.NewProcess` fails and metrics are collected at time 95, the
degraded entry is NOT zero-valued as claimed: its uptime is
`time.Since(startedAt)` = 85 ≠ 0 (only CPU/memory/network are zeroed), so
the claim that a query failure degrades the entry to zero-valued metrics
fails at this input.
-/
theorem metrics_query_fail_nonzero_uptime_cex :
    sampleOnline.status = ProcessStatus.online ∧
    sampleOnline.pid > 0 ∧
    mwNone.newProcessOk sampleOnline.pid = false ∧
    (CollectMetrics mwNone 95 sampleOnline).2 = none ∧
    (CollectMetrics mwNone 95 sampleOnline).1.uptime = 85 ∧
    (CollectMetrics mwNone 95 sampleOnline).1.uptime ≠ 0 := by
  refine ⟨?_, ?_, ?_, ?_, ?_, ?_⟩ <;> decide

/--
C9 (amended): metrics collection never returns an error; a record that is
not `online` (or has a non-positive PID) yields entirely zero-valued
metrics rather than being omitted; a record whose OS process cannot be
queried degrades that single entry to zero-valued CPU, memory and network
metrics while keeping its PID and its uptime (elapsed time since start);
and every listed record still gets an entry in the full collection.
-/
theorem metrics_degrade_preserving_uptime (w : MetricsWorld) (now : Nat)
    (m : Manager) (p : Process) (hp : p ∈ m.processes) :
    (CollectMetrics w now p).2 = none ∧
    (p.status ≠ ProcessStatus.online ∨ p.pid ≤ 0 →
      (CollectMetrics w now p).1 =
        { pid := p.pid, cpu := 0, memory := 0, memoryPercent := 0, uptime := 0,
          netSent := 0, netRecv := 0 }) ∧
    (p.status = ProcessStatus.online → ¬ p.pid ≤ 0 →
      w.newProcessOk p.pid = false →
      (CollectMetrics w now p).1 =
        { pid := p.pid, cpu := 0, memory := 0, memoryPercent := 0,
          uptime := now - p.startedAt, netSent := 0, netRecv := 0 }) ∧
    (p.id, (CollectMetrics w now p).1) ∈ CollectAllMetrics w now m := by
  refine ⟨collectMetrics_no_err w now p, ?_, ?_, ?_⟩
  · intro h
    simp only [CollectMetrics]
    rw [if_pos h]
  · intro honline hpos hnp
    simp only [CollectMetrics]
    rw [if_neg (fun h => h.elim (fun hno => hno honline) hpos)]
    rw [if_pos (by rw [hnp]; rfl)]
  · rw [collectAll_eq_map]
    exact List.mem_map_of_mem _
      (((List.mergeSort_perm m.processes _).mem_iff).mpr hp)

theorem metrics_degrade_preserving_uptime_witness :
    sampleOnline ∈ ([sampleOnline] : List Process) ∧
    ((CollectMetrics mwNone 95 sampleOnline).2 = none ∧
    (sampleOnline.status ≠ ProcessStatus.online ∨ sampleOnline.pid ≤ 0 →
      (CollectMetrics mwNone 95 sampleOnline).1 =
        { pid := sampleOnline.pid, cpu := 0, memory := 0, memoryPercent := 0,
          uptime := 0, netSent := 0, netRecv := 0 }) ∧
    (sampleOnline.status = ProcessStatus.online → ¬ sampleOnline.pid ≤ 0 →
      mwNone.newProcessOk sampleOnline.pid = false →
      (CollectMetrics mwNone 95 sampleOnline).1 =
        { pid := sampleOnline.pid, cpu := 0, memory := 0, memoryPercent := 0,
          uptime := 95 - sampleOnline.startedAt, netSent := 0, netRecv := 0 }) ∧
    (sampleOnline.id, (CollectMetrics mwNone 95 sampleOnline).1) ∈
      CollectAllMetrics mwNone 95 ⟨[sampleOnline], true⟩) :=
  ⟨by decide,
    metrics_degrade_preserving_uptime mwNone 95 ⟨[sampleOnline], true⟩
      sampleOnline (by decide)⟩

theorem get_prefers_id_over_name_witness :
    ((([{ sampleOnline with id := "worker" }, sampleStopped] : List Process)).map
      (fun q => q.id)).Nodup ∧
    ({ sampleOnline with id := "worker" } : Process) ∈
      ([{ sampleOnline with id := "worker" }, sampleStopped] : List Process) ∧
    sampleStopped ∈ ([{ sampleOnline with id := "worker" }, sampleStopped] : List Process) ∧
    ({ sampleOnline with id := "worker" } : Process) ≠ sampleStopped ∧
    Manager.Get ⟨[{ sampleOnline with id := "worker" }, sampleStopped], true⟩ "worker" =
      some { sampleOnline with id := "worker" } :=
  ⟨by decide, by decide, by decide, by decide,
    get_prefers_id_over_name ⟨[{ sampleOnline with id := "worker" }, sampleStopped], true⟩
      "worker" { sampleOnline with id := "worker" } sampleStopped
      (by decide) (by decide) (by decide) (by decide) (by decide) (by decide)⟩

end Prox
